import Mathlib

/-!
Verification development for the licensed-media server
(src/server/aux_functions.py, src/server/server.py).

The Python source is shallowly embedded: pure fragments become Lean
functions, the mutable `MediaServer` instance fields become an explicit
`ServerState` record that handlers transform, and Python exceptions that
a handler can raise (and that the surrounding `render_GET`/`render_POST`
catch into empty 500/501 replies) are modelled with `Except PyErr`.
External collaborators (the cryptography primitives of the missing
`crypto_functions` module, raw file reads) are parameters of the
functions that call them.  Timestamps are integers counted in seconds;
the comparison `datetime.utcfromtimestamp(t) < datetime.now()` from
`licenseValid` is modelled as `t < now`, i.e. the process clock is taken
to be UTC (timezone skew is outside the model).
-/

/-- Python exceptions that escape or are caught inside the handlers. -/
inductive PyErr where
  | nameError
  | keyError
  | valueError
  | typeError
  deriving DecidableEq, Repr

/-- Byte strings, as lists of byte values. -/
abbrev Bytes := List Nat

/-- One entry of `licenses.json`, as built by `register` in
`src/server/aux_functions.py`: username, per-digest-algorithm password
digests, remaining views, expiry timestamp, DER certificate bytes. -/
structure LicenseRecord where
  username : String
  passwords : List (String × String)
  views : Int
  time : Int
  cert : String
  deriving DecidableEq, Repr

/-- `LICENSE_VIEWS = 4` from `src/server/aux_functions.py`. -/
def LICENSE_VIEWS : Int := 4

/-- `LICENSE_SPAN = datetime.timedelta(minutes=5)`, in seconds. -/
def LICENSE_SPAN : Int := 300

/-- Modelled from the spec: `CryptoFunctions.digests`, the digest
algorithms the system supports, lives in the `crypto_functions` module
that is not part of the repository sources.  The spec's protocol catalog
(and `do_choose_protocols` in `src/server/server.py`) enumerates the
digest algorithms as SHA512 and BLAKE2. -/
def CryptoFunctions_digests : List String := ["SHA512", "BLAKE2"]

/-- Result triple of `register`: the created record (or `none`), the
error message, and the resulting contents of `licenses.json`. -/
structure RegisterResult where
  user : Option LicenseRecord
  error : String
  users : List LicenseRecord
  deriving DecidableEq, Repr

/-- `register` from `src/server/aux_functions.py`.  Certificate-chain
validation and signature verification are delegated to external
collaborators (`server.pki.validateCerts`, `CitizenCard.validateSignature`)
and enter as the booleans `certValid` and `sigValid`; the password digest
primitive `CryptoFunctions.create_digest` enters as `create_digest`. -/
def register (users : List LicenseRecord) (username password : String)
    (certValid sigValid : Bool) (certDER : String)
    (create_digest : String → String → String) (now : Int) : RegisterResult :=
  if username = "" ∨ password = "" then
    { user := none, error := "There are attributes missing!", users := users }
  else if !certValid then
    { user := none, error := "The signature certificate is not valid!", users := users }
  else if !sigValid then
    { user := none, error := "The signature is not valid!", users := users }
  else if users.any (fun u => u.username == username) then
    { user := none,
      error := "The username given is already being used! Please choose other.",
      users := users }
  else
    let user : LicenseRecord :=
      { username := username,
        passwords := CryptoFunctions_digests.map (fun d => (d, create_digest password d)),
        views := LICENSE_VIEWS,
        time := now + LICENSE_SPAN,
        cert := certDER }
    { user := some user, error := "", users := users ++ [user] }

/-- `getLicense` from `src/server/aux_functions.py`: first record whose
username matches. -/
def getLicense (users : List LicenseRecord) (username : String) : Option LicenseRecord :=
  users.find? (fun u => u.username == username)

/-- `licenseValid` from `src/server/aux_functions.py`.  The guard
`all(attr in license and license[attr] for attr in ['views', 'time'])`
checks Python truthiness of the two fields (an integer is falsy exactly
when it is 0); the expiry test compares the stored timestamp with the
current time; the view test rejects `views <= 0`. -/
def licenseValid (users : List LicenseRecord) (username : String) (now : Int) : Bool :=
  match getLicense users username with
  | none => false
  | some lic =>
    if lic.views = 0 ∨ lic.time = 0 then false
    else if lic.time < now then false
    else if lic.views ≤ 0 then false
    else true

/-- The user-search loop of `updateLicense`: index and record of the
first entry whose username matches. -/
def findUser : List LicenseRecord → String → Option (Nat × LicenseRecord)
  | [], _ => none
  | u :: rest, uname =>
    if u.username = uname then some (0, u)
    else (findUser rest uname).map (fun p => (p.1 + 1, p.2))

/-- `updateLicense` from `src/server/aux_functions.py`.  With
`renew = true` it resets views and expiry; otherwise with `view = true`
it decrements `views` by one (unconditionally — the source has no floor
at 0).  Returns the updated record and file contents, or `none` when the
username is falsy or absent. -/
def updateLicense (users : List LicenseRecord) (username : String)
    (renew view : Bool) (now : Int) : Option (LicenseRecord × List LicenseRecord) :=
  if username = "" then none
  else
    match findUser users username with
    | none => none
    | some p =>
      let u := p.2
      let u' :=
        if renew then { u with views := LICENSE_VIEWS, time := now + LICENSE_SPAN }
        else if view then { u with views := u.views - 1 }
        else u
      some (u', users.set p.1 u')

/-- Per-client session record stored in `self.sessions` by
`do_public_key` in `src/server/server.py`.  Key objects are opaque
handles. -/
structure SessionRec where
  public_key : Nat
  private_key : Nat
  shared_key : Bytes
  deriving DecidableEq, Repr

/-- The mutable instance fields of `MediaServer` (`src/server/server.py`,
`__init__`): DH parameters, the server-wide `shared_key`, the server-wide
negotiated `CIPHER`/`DIGEST`/`CIPHER_MODE`, the `username` attribute that
`new_license` sets (absent before that, hence `Option`), and the
`sessions` map. -/
structure ServerState where
  parameters : Nat
  shared_key : Option Bytes
  CIPHER : Option String
  DIGEST : Option String
  CIPHER_MODE : Option String
  username : Option String
  sessions : List (Nat × SessionRec)
  deriving DecidableEq, Repr

/-- The freshly constructed server: every negotiable field is `None`,
no username, no sessions. -/
def initialState (params : Nat) : ServerState :=
  { parameters := params, shared_key := none, CIPHER := none, DIGEST := none,
    CIPHER_MODE := none, username := none, sessions := [] }

/-- One catalog entry (`CATALOG` in `src/server/server.py`). -/
structure CatalogItem where
  name : String
  album : String
  description : String
  duration : Nat
  file_name : String
  file_size : Nat
  deriving DecidableEq, Repr

/-- The media id of the single catalog entry. -/
def KID : String := "898a08080d1840793122b7e118b27a95d117ebce"

/-- The file name of the single catalog entry. -/
def KFILE : String := "898a08080d1840793122b7e118b27a95d117ebce.mp3"

/-- The single catalog entry of `CATALOG` in `src/server/server.py`. -/
def KITEM : CatalogItem :=
  { name := "Sunny Afternoon - Upbeat Ukulele Background Music",
    album := "Upbeat Ukulele Background Music",
    description := "Nicolai Heidlas Music: http://soundcloud.com/nicolai-heidlas",
    duration := 3 * 60 + 33,
    file_name := KFILE,
    file_size := 3407202 }

/-- `CATALOG` from `src/server/server.py`. -/
def CATALOG : List (String × CatalogItem) := [(KID, KITEM)]

/-- `CHUNK_SIZE = 1024 * 4` from `src/server/server.py`. -/
def CHUNK_SIZE : Nat := 1024 * 4

/-- `media_id in CATALOG` followed by `CATALOG[media_id]`. -/
def lookupCatalog (media_id : String) : Option CatalogItem :=
  (CATALOG.find? (fun p => p.1 == media_id)).map (fun p => p.2)

/-- `math.ceil(a / b)` for the natural sizes involved (the float division
is exact enough at these magnitudes to agree with integer ceiling). -/
def ceilDiv (a b : Nat) : Nat := (a + b - 1) / b

/-- The protocol catalog returned by `do_choose_protocols` in
`src/server/server.py`. -/
structure ProtocolCatalog where
  cipher : List String
  digests : List String
  cipher_mode : List String
  deriving DecidableEq, Repr

/-- `do_choose_protocols` from `src/server/server.py`. -/
def do_choose_protocols : ProtocolCatalog :=
  { cipher := ["AES", "3DEs"],
    digests := ["SHA512", "BLAKE2"],
    cipher_mode := ["CBC", "OFB"] }

/-- `MediaServer.cipher` from `src/server/server.py`.  The symmetric
encryption and digest primitives of the missing `crypto_functions`
module are the parameters `enc` and `dig`; `enc` receives the key, the
plaintext payload (of any type, standing for the JSON-encoded body), and
the server-wide cipher, cipher-mode and digest names.  The key is
`self.shared_key if not append else self.shared_key + append`: Python
truthiness makes an empty `append` fall back to the bare shared key, and
`None + append` raises a `TypeError` when `append` is truthy while
`shared_key` is still `None`.  Returns the cryptogram and the MIC that
is attached as a response header. -/
def cipherFn {α : Type} (enc : Option Bytes → α → Option String → Option String → Option String → Bytes)
    (dig : Bytes → Option String → Bytes)
    (st : ServerState) (response : α) (append : Option Bytes) :
    Except PyErr (Bytes × Bytes) :=
  match append with
  | none =>
    let c := enc st.shared_key response st.CIPHER st.CIPHER_MODE st.DIGEST
    .ok (c, dig c st.DIGEST)
  | some a =>
    if a.isEmpty then
      let c := enc st.shared_key response st.CIPHER st.CIPHER_MODE st.DIGEST
      .ok (c, dig c st.DIGEST)
    else
      match st.shared_key with
      | none => .error .typeError
      | some sk =>
        let c := enc (some (sk ++ a)) response st.CIPHER st.CIPHER_MODE st.DIGEST
        .ok (c, dig c st.DIGEST)

/-- Digit value of a decimal character. -/
def charDigit? (c : Char) : Option Nat :=
  if 48 ≤ c.toNat ∧ c.toNat ≤ 57 then some (c.toNat - 48) else none

/-- All-digits parse of a character list. -/
def parseDigits : List Char → Option (List Nat)
  | [] => some []
  | c :: cs =>
    match charDigit? c, parseDigits cs with
    | some d, some ds => some (d :: ds)
    | _, _ => none

/-- Fold a digit list into its value. -/
def digitsVal (ds : List Nat) : Nat := ds.foldl (fun a d => a * 10 + d) 0

/-- Python `int(str)` on canonical decimal numerals: an optional minus
sign followed by at least one digit (whitespace, underscores and a plus
sign are outside the model); `none` models the `ValueError` that the
`try` block of `do_download` catches. -/
def pyint? (s : String) : Option Int :=
  match s.toList with
  | [] => none
  | '-' :: cs =>
    if cs.isEmpty then none
    else (parseDigits cs).map (fun ds => -(digitsVal ds : Int))
  | cs => (parseDigits cs).map (fun ds => (digitsVal ds : Int))

/-- Python `bytes(n)` on an integer: `n` zero bytes, raising `ValueError`
for a negative `n`. -/
def pyBytesOfInt (n : Int) : Except PyErr Bytes :=
  if n < 0 then .error .valueError else .ok (List.replicate n.toNat 0)

/-- Bytes of a string (the raw chunk argument when `int()` fails;
`bytes(b)` on a bytes object is a copy). -/
def strBytes (s : String) : Bytes := s.toList.map Char.toNat

/-- The plaintext payloads `do_download` passes to `self.cipher`,
standing for the `json.dumps` bodies. -/
inductive DlMsg where
  | errorMsg (s : String)
  | chunkMsg (media_id : String) (chunk : Int) (data : Bytes)
  deriving DecidableEq, Repr

/-- Observable result of a `do_download` call that returns: HTTP status,
cryptogram body, MIC header, plus instrumentation recording how many
times `update_license` was invoked and which chunk (if any) was read
and served. -/
structure DlResult where
  code : Nat
  cryptogram : Bytes
  mic : Bytes
  consumeCalls : Nat
  served : Option (String × Int × Bytes)
  deriving DecidableEq, Repr

/-- `do_download` from `src/server/server.py`.  `rc` is the external
file collaborator: `rc name offset len` stands for seek-and-read on the
backing asset.  Faithful details: the `id`-missing and media-not-found
branches reference `chunk_id` before its assignment and so raise a
`NameError` (caught by `render_GET` into an empty 500 reply); the chunk
argument defaults to `b'0'`; `int()` failures are caught by the inner
`try`, leaving the raw bytes in `chunk_id`; on an in-range index
`update_license(self.username, media_duration)` is attempted once (an
unset `self.username` raises `AttributeError` inside the same `try`, so
the call is skipped but serving proceeds); the error branch's binding
tag `bytes(chunk_id)` raises `ValueError` when the parsed index is
negative.  No license-validity check appears anywhere in the handler. -/
def do_download (enc : Option Bytes → DlMsg → Option String → Option String → Option String → Bytes)
    (dig : Bytes → Option String → Bytes)
    (rc : String → Int → Nat → Bytes)
    (st : ServerState) (mediaArg chunkArg : Option String) : Except PyErr DlResult :=
  match mediaArg with
  | none => .error .nameError
  | some media_id =>
    match lookupCatalog media_id with
    | none => .error .nameError
    | some item =>
      let raw := chunkArg.getD "0"
      match pyint? raw with
      | none =>
        match cipherFn enc dig st (.errorMsg "invalid chunk id") (some (strBytes raw)) with
        | .error e => .error e
        | .ok cm => .ok { code := 400, cryptogram := cm.1, mic := cm.2,
                          consumeCalls := 0, served := none }
      | some chunk_id =>
        if 0 ≤ chunk_id ∧ chunk_id < (ceilDiv item.file_size CHUNK_SIZE : Int) then
          let calls := if st.username.isSome then 1 else 0
          let offset := chunk_id * (CHUNK_SIZE : Int)
          let data := rc item.file_name offset CHUNK_SIZE
          match pyBytesOfInt chunk_id with
          | .error e => .error e
          | .ok b =>
            match cipherFn enc dig st (.chunkMsg media_id chunk_id data) (some b) with
            | .error e => .error e
            | .ok cm => .ok { code := 200, cryptogram := cm.1, mic := cm.2,
                              consumeCalls := calls,
                              served := some (media_id, chunk_id, data) }
        else
          match pyBytesOfInt chunk_id with
          | .error e => .error e
          | .ok b =>
            match cipherFn enc dig st (.errorMsg "invalid chunk id") (some b) with
            | .error e => .error e
            | .ok cm => .ok { code := 400, cryptogram := cm.1, mic := cm.2,
                              consumeCalls := 0, served := none }

/-- One row of the `do_list` reply. -/
structure MediaSummary where
  id : String
  name : String
  description : String
  chunks : Nat
  duration : Nat
  deriving DecidableEq, Repr

/-- The `media_list` built by `do_list` in `src/server/server.py`. -/
def mediaList : List MediaSummary :=
  CATALOG.map (fun p =>
    { id := p.1, name := p.2.name, description := p.2.description,
      chunks := ceilDiv p.2.file_size CHUNK_SIZE, duration := p.2.duration })

/-- Observable result of `do_list`. -/
structure ListResult where
  code : Nat
  cryptogram : Bytes
  mic : Bytes
  deriving DecidableEq, Repr

/-- `do_list` from `src/server/server.py`: builds the summary list and
returns it through `self.cipher` with no binding tag. -/
def do_list (enc : Option Bytes → List MediaSummary → Option String → Option String → Option String → Bytes)
    (dig : Bytes → Option String → Bytes) (st : ServerState) : Except PyErr ListResult :=
  match cipherFn enc dig st mediaList none with
  | .error e => .error e
  | .ok cm => .ok { code := 200, cryptogram := cm.1, mic := cm.2 }

/-- `process_negotiation` from `src/server/server.py`.  The three
arguments are read from `request.args`; each missing key raises
`KeyError` after the preceding assignments have already happened, so the
state reached so far is returned together with the error.  No value is
checked against the protocol catalog. -/
def process_negotiation (st : ServerState) (cipherArg digestArg modeArg : Option String) :
    ServerState × Option PyErr :=
  match cipherArg with
  | none => (st, some .keyError)
  | some c =>
    let st1 := { st with CIPHER := some c }
    match digestArg with
    | none => (st1, some .keyError)
    | some d =>
      let st2 := { st1 with DIGEST := some d }
      match modeArg with
      | none => (st2, some .keyError)
      | some m => ({ st2 with CIPHER_MODE := some m }, none)

/-- `do_public_key` from `src/server/server.py`.  `newKeys` stands for
`CryptoFunctions.newKeys(self.parameters)`, `exchange` for
`private_key.exchange(client_public_key)`, and `freshId` for the
generated `uuid.uuid1()`.  The handler stores the new session under the
fresh id and answers with the server public key and the session id; the
server-wide `shared_key`, `CIPHER`, `DIGEST` and `CIPHER_MODE` fields
are not touched. -/
def do_public_key (newKeys : Nat → Nat × Nat) (exchange : Nat → Nat → Bytes)
    (freshId : Nat) (st : ServerState) (client_public_key : Nat) :
    ServerState × Nat × Nat :=
  let kp := newKeys st.parameters
  let private_key := kp.1
  let public_key := kp.2
  let shared_key := exchange private_key client_public_key
  ({ st with sessions :=
      (freshId, { public_key := public_key, private_key := private_key,
                  shared_key := shared_key }) :: st.sessions },
   public_key, freshId)

/-- A minimal license record for concrete evaluations. -/
def mkRec (name : String) (v t : Int) : LicenseRecord :=
  { username := name, passwords := [], views := v, time := t, cert := "" }

/-- Concrete stand-in for the symmetric-encryption collaborator on
download payloads: returns the key bytes, so the key actually used is
observable in the output. -/
def demoEnc : Option Bytes → DlMsg → Option String → Option String → Option String → Bytes :=
  fun k _ _ _ _ => k.getD []

/-- Concrete stand-in for the symmetric-encryption collaborator on an
arbitrary numeric payload. -/
def demoEncNat : Option Bytes → Nat → Option String → Option String → Option String → Bytes :=
  fun k _ _ _ _ => k.getD []

/-- Concrete stand-in for the digest collaborator. -/
def demoDig : Bytes → Option String → Bytes := fun c _ => 0 :: c

/-- Concrete stand-in for the chunk-reading file collaborator. -/
def demoRead : String → Int → Nat → Bytes := fun _ _ _ => [1, 2, 3]

/-- A concrete server state after key exchange, negotiation and login
would have populated the relevant fields. -/
def demoState : ServerState :=
  { parameters := 0, shared_key := some [7], CIPHER := some "AES",
    DIGEST := some "SHA512", CIPHER_MODE := some "CBC",
    username := some "alice", sessions := [] }

/-- Concrete stand-in for `CryptoFunctions.create_digest`. -/
def demoDigestFn : String → String → String := fun p d => d ++ p

/-!
Theorems.  Claim-bearing theorems are marked with their claim id.
-/

/-- Claim C1 counterexample: the spec requires `consume` to be a no-op
at `viewsRemaining = 0`, never letting the counter go negative.  On a
record holding 0 views, `updateLicense` with `view = True` (the consume
path) yields -1. -/
theorem C1_counterexample :
    (updateLicense [mkRec "alice" 0 2000] "alice" false true 2000).map (fun p => p.1.views)
      = some (-1) := by
  rfl

/-- Claim C1 (amended): the consume path of `updateLicense` decrements
`views` by one unconditionally — there is no floor at 0, so four calls
starting from 4 reach exactly 0 while a fifth reaches -1. -/
theorem C1_amended_consume_decrements :
    ∀ (users : List LicenseRecord) (username : String) (now : Int) (i : Nat) (u : LicenseRecord),
    username ≠ "" → findUser users username = some (i, u) →
    updateLicense users username false true now =
      some ({ u with views := u.views - 1 }, users.set i { u with views := u.views - 1 }) := by
  intro users username now i u hne hf
  unfold updateLicense
  rw [if_neg hne, hf]
  rfl

/-- Witness for C1 (amended) at a concrete record with 4 views. -/
theorem C1_amended_consume_decrements_witness :
    updateLicense [mkRec "bob" 4 100] "bob" false true 100 =
      some (mkRec "bob" 3 100, [mkRec "bob" 3 100]) :=
  C1_amended_consume_decrements [mkRec "bob" 4 100] "bob" 100 0 (mkRec "bob" 4 100)
    (by decide) rfl

/-- Claim C3 counterexample: `licenseValid` accepts a record whose
expiry timestamp equals the current time, although the claim requires
`expiresAt` to be strictly after the current time. -/
theorem C3_counterexample :
    getLicense [mkRec "alice" 4 100] "alice" = some (mkRec "alice" 4 100)
    ∧ (0 : Int) < (mkRec "alice" 4 100).views
    ∧ ¬ ((100 : Int) < (mkRec "alice" 4 100).time)
    ∧ licenseValid [mkRec "alice" 4 100] "alice" 100 = true := by
  exact ⟨rfl, by decide, by decide, rfl⟩

/-- Claim C3 (amended): for a positive clock value, `licenseValid` is
true iff a record exists, its views are strictly positive, and its
expiry timestamp is at or after the current time (a record expiring at
the current instant is still valid). -/
theorem C3_amended_licenseValid_iff :
    ∀ (users : List LicenseRecord) (uname : String) (now : Int), 0 < now →
    (licenseValid users uname now = true ↔
      ∃ lic, getLicense users uname = some lic ∧ 0 < lic.views ∧ now ≤ lic.time) := by
  intro users uname now hnow
  cases hg : getLicense users uname with
  | none => simp [licenseValid, hg]
  | some lic =>
    simp only [licenseValid, hg]
    constructor
    · intro hv
      refine ⟨lic, rfl, ?_⟩
      by_cases h1 : lic.views = 0 ∨ lic.time = 0
      · rw [if_pos h1] at hv; cases hv
      · rw [if_neg h1] at hv
        by_cases h2 : lic.time < now
        · rw [if_pos h2] at hv; cases hv
        · rw [if_neg h2] at hv
          by_cases h3 : lic.views ≤ 0
          · rw [if_pos h3] at hv; cases hv
          · push_neg at h1 h2 h3
            omega
    · rintro ⟨lic', hl, hv, ht⟩
      injection hl with hl
      subst hl
      rw [if_neg (by omega), if_neg (by omega), if_neg (by omega)]

/-- Witness for C3 (amended) at a concrete valid record. -/
theorem C3_amended_licenseValid_iff_witness :
    (0 : Int) < 100
    ∧ (licenseValid [mkRec "alice" 3 200] "alice" 100 = true ↔
        ∃ lic, getLicense [mkRec "alice" 3 200] "alice" = some lic
          ∧ 0 < lic.views ∧ (100 : Int) ≤ lic.time) :=
  ⟨by decide, C3_amended_licenseValid_iff [mkRec "alice" 3 200] "alice" 100 (by decide)⟩

/-- Claim C7 counterexample: negotiating a cipher ("FOO") that is not in
the protocol catalog is recorded verbatim with no error — the suite is
silently accepted, contradicting the claim that it must fail with a
suite error. -/
theorem C7_counterexample :
    process_negotiation (initialState 0) (some "FOO") (some "SHA512") (some "CBC")
      = ({ (initialState 0) with
            CIPHER := some "FOO",
            DIGEST := some "SHA512",
            CIPHER_MODE := some "CBC" },
         none)
    ∧ "FOO" ∉ do_choose_protocols.cipher := by
  exact ⟨rfl, by decide⟩

/-- Claim C7 (amended): `process_negotiation` performs no validation at
all — any provided cipher/digest/mode triple, recognized or not, is
recorded verbatim into the server-wide fields with no error, and the
sessions map is untouched (the suite is not attached to any session). -/
theorem C7_amended_negotiation_unvalidated :
    ∀ (st : ServerState) (c d m : String),
    process_negotiation st (some c) (some d) (some m)
      = ({ st with CIPHER := some c, DIGEST := some d, CIPHER_MODE := some m }, none)
    ∧ (process_negotiation st (some c) (some d) (some m)).1.sessions = st.sessions := by
  intro st c d m
  exact ⟨rfl, rfl⟩

/-- Claim C10: `do_public_key` inserts under the fresh session id a
record holding the newly generated server key pair and the DH shared
secret computed from the client's public key, leaves the server-wide
`shared_key`, `CIPHER`, `DIGEST` and `CIPHER_MODE` unchanged, and
`cipher` reads only those server-wide fields — changing the sessions
map, username or parameters never changes its output. -/
theorem C10_public_key_session_insert_frame :
    ∀ (newKeys : Nat → Nat × Nat) (exchange : Nat → Nat → Bytes) (freshId : Nat)
      (st : ServerState) (cp : Nat),
    ((do_public_key newKeys exchange freshId st cp).1.shared_key = st.shared_key
      ∧ (do_public_key newKeys exchange freshId st cp).1.CIPHER = st.CIPHER
      ∧ (do_public_key newKeys exchange freshId st cp).1.DIGEST = st.DIGEST
      ∧ (do_public_key newKeys exchange freshId st cp).1.CIPHER_MODE = st.CIPHER_MODE
      ∧ (do_public_key newKeys exchange freshId st cp).1.sessions =
          (freshId, { public_key := (newKeys st.parameters).2,
                      private_key := (newKeys st.parameters).1,
                      shared_key := exchange (newKeys st.parameters).1 cp }) :: st.sessions
      ∧ (do_public_key newKeys exchange freshId st cp).2 = ((newKeys st.parameters).2, freshId))
    ∧ ∀ (α : Type) (enc : Option Bytes → α → Option String → Option String → Option String → Bytes)
        (dig : Bytes → Option String → Bytes) (resp : α) (append : Option Bytes)
        (sessions2 : List (Nat × SessionRec)) (username2 : Option String) (params2 : Nat),
      cipherFn enc dig
          { st with sessions := sessions2, username := username2, parameters := params2 }
          resp append
        = cipherFn enc dig st resp append := by
  intro nk ex fid st cp
  exact ⟨⟨rfl, rfl, rfl, rfl, rfl, rfl⟩, fun α enc dig resp append s2 u2 p2 => rfl⟩

/-- When the server-wide shared key is set, `cipher` always succeeds and
the effective key is the shared key concatenated with the binding tag
(an absent or empty tag contributes nothing); the MIC is the digest of
the cryptogram under the server-wide digest algorithm. -/
theorem cipherFn_some_key {α : Type}
    (enc : Option Bytes → α → Option String → Option String → Option String → Bytes)
    (dig : Bytes → Option String → Bytes) (st : ServerState) (resp : α)
    (append : Option Bytes) (sk : Bytes) (h : st.shared_key = some sk) :
    cipherFn enc dig st resp append =
      .ok (enc (some (sk ++ append.getD [])) resp st.CIPHER st.CIPHER_MODE st.DIGEST,
           dig (enc (some (sk ++ append.getD [])) resp st.CIPHER st.CIPHER_MODE st.DIGEST)
             st.DIGEST) := by
  cases append with
  | none => simp [cipherFn, h]
  | some a =>
    by_cases ha : a.isEmpty
    · have ha' : a = [] := by simpa using ha
      subst ha'
      simp [cipherFn, h]
    · simp [cipherFn, ha, h]

/-- Claim C6: `cipher` encrypts the payload under a key derived from the
shared secret — the shared secret concatenated with the binding tag when
one is supplied — using the server-wide negotiated suite, and the
returned MIC equals the digest of the cryptogram under the negotiated
digest algorithm. -/
theorem C6_cipher_key_and_mic :
    ∀ (α : Type) (enc : Option Bytes → α → Option String → Option String → Option String → Bytes)
      (dig : Bytes → Option String → Bytes) (st : ServerState) (resp : α)
      (append : Option Bytes) (sk : Bytes),
    st.shared_key = some sk →
    cipherFn enc dig st resp append =
      .ok (enc (some (sk ++ append.getD [])) resp st.CIPHER st.CIPHER_MODE st.DIGEST,
           dig (enc (some (sk ++ append.getD [])) resp st.CIPHER st.CIPHER_MODE st.DIGEST)
             st.DIGEST) :=
  fun α enc dig st resp append sk h => cipherFn_some_key enc dig st resp append sk h

/-- Witness for C6 at a concrete session state and binding tag. -/
theorem C6_cipher_key_and_mic_witness :
    cipherFn demoEncNat demoDig demoState (0 : Nat) (some [3]) = .ok ([7, 3], [0, 7, 3]) :=
  C6_cipher_key_and_mic Nat demoEncNat demoDig demoState 0 (some [3]) [7] rfl

/-- Claim C5: a successful registration stores a password digest under
every digest algorithm the system supports, sets `views = 4` and
`time = now + 300` seconds (5 minutes), and appends the new record; a
registration for a username that already has a record is rejected and
leaves the stored records unchanged, whatever the outcome of the
certificate and signature checks. -/
theorem C5_register_defaults_and_duplicates :
    ∀ (users : List LicenseRecord) (username password certDER : String)
      (cd : String → String → String) (now : Int),
    (username ≠ "" → password ≠ "" → (∀ u ∈ users, u.username ≠ username) →
      ∃ user, register users username password true true certDER cd now =
          { user := some user, error := "", users := users ++ [user] }
        ∧ user.username = username
        ∧ user.views = 4
        ∧ user.time = now + 300
        ∧ user.passwords.map Prod.fst = CryptoFunctions_digests)
    ∧ (∀ (certValid sigValid : Bool), (∃ u ∈ users, u.username = username) →
        (register users username password certValid sigValid certDER cd now).user = none
        ∧ (register users username password certValid sigValid certDER cd now).users = users) := by
  intro users username password certDER cd now
  constructor
  · intro hu hp hfree
    have h1 : ¬(username = "" ∨ password = "") := by
      rintro (h | h)
      · exact hu h
      · exact hp h
    have hany : users.any (fun u => u.username == username) = false := by
      rw [List.any_eq_false]
      intro u hu'
      simpa using hfree u hu'
    refine ⟨{ username := username,
              passwords := CryptoFunctions_digests.map (fun d => (d, cd password d)),
              views := LICENSE_VIEWS,
              time := now + LICENSE_SPAN,
              cert := certDER }, ?_, rfl, rfl, rfl, rfl⟩
    unfold register
    rw [if_neg h1]
    simp [hany]
  · intro certValid sigValid htaken
    have hany : users.any (fun u => u.username == username) = true := by
      rw [List.any_eq_true]
      obtain ⟨u, hu, he⟩ := htaken
      exact ⟨u, hu, by simpa using he⟩
    unfold register
    by_cases h1 : username = "" ∨ password = ""
    · rw [if_pos h1]; exact ⟨rfl, rfl⟩
    · rw [if_neg h1]
      cases certValid with
      | false => exact ⟨rfl, rfl⟩
      | true =>
        cases sigValid with
        | false => exact ⟨rfl, rfl⟩
        | true => simp [hany]

/-- Witness for C5 at a concrete fresh registration. -/
theorem C5_register_defaults_and_duplicates_witness :
    ∃ user, register [] "alice" "pw" true true "c" demoDigestFn 0 =
        { user := some user, error := "", users := [] ++ [user] }
      ∧ user.username = "alice"
      ∧ user.views = 4
      ∧ user.time = (0 : Int) + 300
      ∧ user.passwords.map Prod.fst = CryptoFunctions_digests :=
  (C5_register_defaults_and_duplicates [] "alice" "pw" "c" demoDigestFn 0).1
    (by decide) (by decide) (by intro u hu; cases hu)

/-- Serve characterization of `do_download`: for a known media id and an
in-range parsed chunk index, with the shared key set, the handler reads
the byte range at `chunk * CHUNK_SIZE` and returns it sealed, attempting
`update_license` once exactly when a username is set. -/
theorem do_download_serve
    (enc : Option Bytes → DlMsg → Option String → Option String → Option String → Bytes)
    (dig : Bytes → Option String → Bytes) (rc : String → Int → Nat → Bytes)
    (st : ServerState) (mid : String) (item : CatalogItem) (cstr : String) (i : Int)
    (sk : Bytes) (hl : lookupCatalog mid = some item) (hp : pyint? cstr = some i)
    (h0 : 0 ≤ i) (hi : i < (ceilDiv item.file_size CHUNK_SIZE : Int))
    (hsk : st.shared_key = some sk) :
    do_download enc dig rc st (some mid) (some cstr) =
      .ok { code := 200,
            cryptogram := enc (some (sk ++ List.replicate i.toNat 0))
              (.chunkMsg mid i (rc item.file_name (i * (CHUNK_SIZE : Int)) CHUNK_SIZE))
              st.CIPHER st.CIPHER_MODE st.DIGEST,
            mic := dig (enc (some (sk ++ List.replicate i.toNat 0))
              (.chunkMsg mid i (rc item.file_name (i * (CHUNK_SIZE : Int)) CHUNK_SIZE))
              st.CIPHER st.CIPHER_MODE st.DIGEST) st.DIGEST,
            consumeCalls := if st.username.isSome then 1 else 0,
            served := some (mid, i, rc item.file_name (i * (CHUNK_SIZE : Int)) CHUNK_SIZE) } := by
  have hb : pyBytesOfInt i = .ok (List.replicate i.toNat 0) := by
    unfold pyBytesOfInt
    rw [if_neg (by omega)]
  simp only [do_download, hl, Option.getD_some, hp, hb]
  rw [if_pos ⟨h0, hi⟩]
  rw [cipherFn_some_key enc dig st _ _ sk hsk]
  simp

/-- Out-of-range characterization of `do_download`: for a known media id
and a parsed non-negative chunk index failing the bounds check, with the
shared key set, the handler returns the sealed invalid-chunk error with
status 400, serving nothing and never touching the license. -/
theorem do_download_out_of_range
    (enc : Option Bytes → DlMsg → Option String → Option String → Option String → Bytes)
    (dig : Bytes → Option String → Bytes) (rc : String → Int → Nat → Bytes)
    (st : ServerState) (mid : String) (item : CatalogItem) (cstr : String) (i : Int)
    (sk : Bytes) (hl : lookupCatalog mid = some item) (hp : pyint? cstr = some i)
    (h0 : 0 ≤ i) (hi : ¬ i < (ceilDiv item.file_size CHUNK_SIZE : Int))
    (hsk : st.shared_key = some sk) :
    do_download enc dig rc st (some mid) (some cstr) =
      .ok { code := 400,
            cryptogram := enc (some (sk ++ List.replicate i.toNat 0))
              (.errorMsg "invalid chunk id") st.CIPHER st.CIPHER_MODE st.DIGEST,
            mic := dig (enc (some (sk ++ List.replicate i.toNat 0))
              (.errorMsg "invalid chunk id") st.CIPHER st.CIPHER_MODE st.DIGEST) st.DIGEST,
            consumeCalls := 0,
            served := none } := by
  have hb : pyBytesOfInt i = .ok (List.replicate i.toNat 0) := by
    unfold pyBytesOfInt
    rw [if_neg (by omega)]
  simp only [do_download, hl, Option.getD_some, hp, hb]
  rw [if_neg (fun hc => hi hc.2)]
  rw [cipherFn_some_key enc dig st _ _ sk hsk]
  simp

/-- Negative-index characterization of `do_download`: a parsed negative
chunk index fails the bounds check, and the error branch then crashes
computing the binding tag `bytes(chunk_id)` — the handler raises an
unhandled `ValueError` (which `render_GET` turns into an empty 500
reply) instead of returning the structured invalid-chunk error. -/
theorem do_download_negative
    (enc : Option Bytes → DlMsg → Option String → Option String → Option String → Bytes)
    (dig : Bytes → Option String → Bytes) (rc : String → Int → Nat → Bytes)
    (st : ServerState) (mid : String) (item : CatalogItem) (cstr : String) (i : Int)
    (hl : lookupCatalog mid = some item) (hp : pyint? cstr = some i) (hneg : i < 0) :
    do_download enc dig rc st (some mid) (some cstr) = .error .valueError := by
  have hb : pyBytesOfInt i = .error .valueError := by
    unfold pyBytesOfInt
    rw [if_pos hneg]
  simp only [do_download, hl, Option.getD_some, hp, hb]
  rw [if_neg (fun hc => absurd hneg (by omega : ¬ i < 0))]

/-- Claim C2 counterexample: the user's license is invalid (0 views
remaining), yet the chunk request is served with status 200 — the
handler performs no license-validity check and has no `LicenseInvalid`
failure path. -/
theorem C2_counterexample :
    licenseValid [mkRec "alice" 0 2000] "alice" 1000 = false
    ∧ do_download demoEnc demoDig demoRead demoState (some KID) (some "1") =
        .ok { code := 200, cryptogram := [7, 0], mic := [0, 7, 0],
              consumeCalls := 1, served := some (KID, 1, [1, 2, 3]) } := by
  exact ⟨rfl, rfl⟩

/-- Claim C2 (amended): `do_download` never consults the license ledger:
for a known media id and an in-range chunk index (shared key and
username set), the byte range `[chunk * CHUNK_SIZE, + CHUNK_SIZE)` is
read and served with one `update_license` call even when the requesting
user's license is not valid; no `LicenseInvalid` error is ever
produced. -/
theorem C2_amended_download_ignores_license :
    ∀ (enc : Option Bytes → DlMsg → Option String → Option String → Option String → Bytes)
      (dig : Bytes → Option String → Bytes) (rc : String → Int → Nat → Bytes)
      (st : ServerState) (users : List LicenseRecord) (now : Int)
      (mid : String) (item : CatalogItem) (cstr : String) (i : Int)
      (sk : Bytes) (uname : String),
    lookupCatalog mid = some item → pyint? cstr = some i →
    0 ≤ i → i < (ceilDiv item.file_size CHUNK_SIZE : Int) →
    st.shared_key = some sk → st.username = some uname →
    licenseValid users uname now = false →
    ∃ r, do_download enc dig rc st (some mid) (some cstr) = .ok r
      ∧ r.code = 200 ∧ r.consumeCalls = 1
      ∧ r.served = some (mid, i, rc item.file_name (i * (CHUNK_SIZE : Int)) CHUNK_SIZE) := by
  intro enc dig rc st users now mid item cstr i sk uname hl hp h0 hi hsk huser hinvalid
  refine ⟨_, do_download_serve enc dig rc st mid item cstr i sk hl hp h0 hi hsk, rfl, ?_, rfl⟩
  simp [huser]

/-- Witness for C2 (amended): a concrete state whose user holds an
exhausted license is still served chunk 1. -/
theorem C2_amended_download_ignores_license_witness :
    ∃ r, do_download demoEnc demoDig demoRead demoState (some KID) (some "1") = .ok r
      ∧ r.code = 200 ∧ r.consumeCalls = 1
      ∧ r.served = some (KID, 1, demoRead KFILE ((1 : Int) * (CHUNK_SIZE : Int)) CHUNK_SIZE) :=
  C2_amended_download_ignores_license demoEnc demoDig demoRead demoState
    [mkRec "alice" 0 2000] 1000 KID KITEM "1" 1 [7] "alice"
    rfl rfl (by decide) (by decide) rfl rfl (by decide)

/-- Claim C4 counterexample: requesting a negative chunk index does not
fail with the structured invalid-chunk error — the error branch crashes
on `bytes(-1)` and the request dies with an unhandled `ValueError`
(empty 500 reply at `render_GET`). -/
theorem C4_counterexample :
    do_download demoEnc demoDig demoRead demoState (some KID) (some "-1")
      = .error .valueError := by
  rfl

/-- Claim C4 (amended): against the known catalog item, the bounds check
accepts exactly the indices in `[0, ceil(3407202/4096)) = [0, 832)`:
every such index is served, index 832 yields the sealed invalid-chunk
400 error, while a negative index is rejected by the bounds check but
crashes building the binding tag (yielding an unhandled `ValueError`
instead of the structured error); the catalog listing reports 832
chunks. -/
theorem C4_amended_chunk_bounds :
    ∀ (enc : Option Bytes → DlMsg → Option String → Option String → Option String → Bytes)
      (dig : Bytes → Option String → Bytes) (rc : String → Int → Nat → Bytes)
      (st : ServerState) (cstr : String) (i : Int) (sk : Bytes),
    pyint? cstr = some i → st.shared_key = some sk →
    ((0 ≤ i → i < 832 →
        ∃ r, do_download enc dig rc st (some KID) (some cstr) = .ok r
          ∧ r.code = 200
          ∧ r.served = some (KID, i, rc KFILE (i * (CHUNK_SIZE : Int)) CHUNK_SIZE))
      ∧ (i = 832 →
        ∃ r, do_download enc dig rc st (some KID) (some cstr) = .ok r
          ∧ r.code = 400 ∧ r.served = none ∧ r.consumeCalls = 0)
      ∧ (i < 0 → do_download enc dig rc st (some KID) (some cstr) = .error .valueError))
    ∧ mediaList.map (fun s => s.chunks) = [832] := by
  intro enc dig rc st cstr i sk hp hsk
  have hl : lookupCatalog KID = some KITEM := rfl
  have hceil : (ceilDiv KITEM.file_size CHUNK_SIZE : Int) = 832 := by decide
  refine ⟨⟨?_, ?_, ?_⟩, by decide⟩
  · intro h0 hi
    exact ⟨_, do_download_serve enc dig rc st KID KITEM cstr i sk hl hp h0 (by omega) hsk,
      rfl, rfl⟩
  · intro h832
    subst h832
    exact ⟨_, do_download_out_of_range enc dig rc st KID KITEM cstr 832 sk hl hp
      (by decide) (by omega) hsk, rfl, rfl, rfl⟩
  · intro hneg
    exact do_download_negative enc dig rc st KID KITEM cstr i hl hp hneg

/-- Witness for C4 (amended): chunk 5 of the known item is served. -/
theorem C4_amended_chunk_bounds_witness :
    ∃ r, do_download demoEnc demoDig demoRead demoState (some KID) (some "5") = .ok r
      ∧ r.code = 200
      ∧ r.served = some (KID, 5, demoRead KFILE ((5 : Int) * (CHUNK_SIZE : Int)) CHUNK_SIZE) :=
  (C4_amended_chunk_bounds demoEnc demoDig demoRead demoState "5" 5 [7] rfl rfl).1.1
    (by decide) (by decide)

/-- Claim C9: a download request that omits the chunk parameter behaves
exactly as if chunk index 0 had been requested (`request.args.get`
defaults to `b'0'`), and for the known media id it serves chunk 0 rather
than rejecting the request as malformed. -/
theorem C9_chunk_defaults_to_zero :
    ∀ (enc : Option Bytes → DlMsg → Option String → Option String → Option String → Bytes)
      (dig : Bytes → Option String → Bytes) (rc : String → Int → Nat → Bytes)
      (st : ServerState) (m : Option String),
    do_download enc dig rc st m none = do_download enc dig rc st m (some "0")
    ∧ ∃ r, do_download enc dig rc st (some KID) none = .ok r
        ∧ r.code = 200 ∧ r.served = some (KID, 0, rc KFILE 0 CHUNK_SIZE) := by
  intro enc dig rc st m
  constructor
  · cases m with
    | none => rfl
    | some mid =>
      cases hl : lookupCatalog mid with
      | none => simp [do_download, hl]
      | some item => simp [do_download, hl]
  · exact ⟨_, rfl, rfl, rfl⟩

/-- Claim C8: every payload the protected endpoints return — success or
structured error — is an output of the sealing operation `cipher`; no
other body is produced (branches that raise propagate as exceptions and
yield no payload from the handler). -/
theorem C8_protected_responses_sealed :
    ∀ (enc : Option Bytes → DlMsg → Option String → Option String → Option String → Bytes)
      (dig : Bytes → Option String → Bytes) (rc : String → Int → Nat → Bytes)
      (st : ServerState) (m c : Option String)
      (encL : Option Bytes → List MediaSummary → Option String → Option String → Option String → Bytes)
      (digL : Bytes → Option String → Bytes),
    (match do_download enc dig rc st m c with
     | .ok r => ∃ msg append, cipherFn enc dig st msg append = .ok (r.cryptogram, r.mic)
     | .error _ => True)
    ∧ (match do_list encL digL st with
       | .ok r => cipherFn encL digL st mediaList none = .ok (r.cryptogram, r.mic)
       | .error _ => True) := by
  intro enc dig rc st m c encL digL
  constructor
  · cases m with
    | none => simp [do_download]
    | some mid =>
      cases hl : lookupCatalog mid with
      | none => simp [do_download, hl]
      | some item =>
        cases hp : pyint? (c.getD "0") with
        | none =>
          cases hc : cipherFn enc dig st (.errorMsg "invalid chunk id")
              (some (strBytes (c.getD "0"))) with
          | error e => simp [do_download, hl, hp, hc]
          | ok cm =>
            simp only [do_download, hl, hp, hc]
            exact ⟨_, _, by rw [hc]⟩
        | some chunk_id =>
          by_cases hb : 0 ≤ chunk_id ∧ chunk_id < (ceilDiv item.file_size CHUNK_SIZE : Int)
          · cases hby : pyBytesOfInt chunk_id with
            | error e => simp [do_download, hl, hp, hby, hb]
            | ok b =>
              cases hc : cipherFn enc dig st
                  (.chunkMsg mid chunk_id (rc item.file_name (chunk_id * (CHUNK_SIZE : Int)) CHUNK_SIZE))
                  (some b) with
              | error e => simp [do_download, hl, hp, hby, hb, hc]
              | ok cm =>
                simp only [do_download, hl, hp, if_pos hb, hby, hc]
                exact ⟨_, _, by rw [hc]⟩
          · cases hby : pyBytesOfInt chunk_id with
            | error e => simp [do_download, hl, hp, hby, hb]
            | ok b =>
              cases hc : cipherFn enc dig st (.errorMsg "invalid chunk id") (some b) with
              | error e => simp [do_download, hl, hp, hby, hb, hc]
              | ok cm =>
                simp only [do_download, hl, hp, if_neg hb, hby, hc]
                exact ⟨_, _, by rw [hc]⟩
  · exact rfl
